import Mathlib

/-!
# Verification of the Supplement Tracker inventory engine

A shallow embedding of the core logic of `src/main.py` (class `Supplement`,
class `SupplementTracker`'s persistence methods, and class `BackupManager`),
together with theorems settling the specification claims about it.

## Modelling conventions

* Calendar dates (`last_updated`, `save_date`) are modelled as `Int`, the
  number of days since an arbitrary epoch.  The Python code stores dates as
  `"%Y-%m-%d"` strings and computes `(datetime.now() - parsed).days`, where
  `parsed` is midnight of the stored date.  For `now` on calendar day `n`
  with time-of-day `t` seconds (`0 ≤ t < 86400`) and a stored day `L`, the
  difference is `(n - L)*86400 + t` seconds, and Python's `timedelta.days`
  is the floor of that in days, which is exactly `n - L` — the signed
  calendar-day difference.  So day arithmetic on `Int` is an exact model,
  including the case where the stored date lies in the future.
* Python `float` values that only ever hold exact results in the modelled
  code paths (`cost`, exact divisions) are modelled as `ℚ`.
* Fallible operations (JSON parsing, dictionary lookup) return `Option`;
  `none` models a raised exception.
* The file system relevant to the backup manager is modelled as the list of
  file names present in the backup directory.
-/

/-- One tracked supplement: the fields set by `Supplement.__init__`
(src/main.py lines 559-582). -/
structure Supplement where
  name : String
  current_count : Int
  initial_count : Int
  cost : ℚ
  tags : List String
  link : String
  daily_dose : Int
  auto_decrement : Bool
  last_updated : Int
deriving DecidableEq, Repr

/-- `Supplement.update_count` (src/main.py lines 638-647), with `now` made
explicit.  `days_passed = (datetime.now() - last_updated).days` is the signed
calendar-day difference (see the modelling conventions); the code applies
`max(0, current_count - days_passed * daily_dose)` and stamps `last_updated`
with today's date.  When `auto_decrement` is false the method returns at once
and changes nothing. -/
def Supplement.update_count (now : Int) (s : Supplement) : Supplement :=
  if !s.auto_decrement then s
  else
    let days_passed := now - s.last_updated
    let doses_taken := days_passed * s.daily_dose
    { s with
      current_count := max 0 (s.current_count - doses_taken)
      last_updated := now }

/-- A Python float as produced by `days_remaining`: either the `float('inf')`
sentinel or an exact value. -/
inductive PyFloat where
  | inf : PyFloat
  | val : ℚ → PyFloat
deriving DecidableEq, Repr

/-- Python division `a / b`, which raises `ZeroDivisionError` (modelled as
`none`) when `b = 0`. -/
def pydiv (a b : ℚ) : Option ℚ :=
  if b = 0 then none else some (a / b)

/-- `Supplement.days_remaining` (src/main.py lines 627-636): returns
`float('inf')` when `daily_dose == 0`, otherwise `current_count / daily_dose`.
The result is an `Option` so that a division by zero, were it ever reached,
would show up as `none`. -/
def Supplement.days_remaining (s : Supplement) : Option PyFloat :=
  if s.daily_dose = 0 then some PyFloat.inf
  else (pydiv (s.current_count : ℚ) (s.daily_dose : ℚ)).map PyFloat.val

/-- The dictionary produced by `Supplement.to_dict` (src/main.py lines
584-601) and consumed by `Supplement.from_dict` (lines 603-625).  Every field
is optional because a dictionary read back from a JSON file may be missing
keys; `none` models an absent key. -/
structure RawItem where
  name : Option String
  current_count : Option Int
  initial_count : Option Int
  cost : Option ℚ
  tags : Option (List String)
  link : Option String
  daily_dose : Option Int
  auto_decrement : Option Bool
  last_updated : Option Int
deriving DecidableEq, Repr

/-- `Supplement.to_dict` (src/main.py lines 584-601): every attribute is
written out. -/
def Supplement.to_dict (s : Supplement) : RawItem where
  name := some s.name
  current_count := some s.current_count
  initial_count := some s.initial_count
  cost := some s.cost
  tags := some s.tags
  link := some s.link
  daily_dose := some s.daily_dose
  auto_decrement := some s.auto_decrement
  last_updated := some s.last_updated

/-- `Supplement.from_dict` (src/main.py lines 603-625): direct indexing
(`data['name']`, …, `data['last_updated']`) raises `KeyError` on a missing
key (modelled as `none`), while `auto_decrement` uses
`data.get('auto_decrement', True)`.  The constructor's own
`datetime.now()` stamp on `last_updated` is dead code here because the
method immediately overwrites it with `data['last_updated']`. -/
def Supplement.from_dict (d : RawItem) : Option Supplement :=
  match d.name, d.current_count, d.initial_count, d.cost, d.tags, d.link,
      d.daily_dose, d.last_updated with
  | some n, some cc, some ic, some c, some t, some l, some dd, some lu =>
    some { name := n, current_count := cc, initial_count := ic, cost := c,
           tags := t, link := l, daily_dose := dd,
           auto_decrement := d.auto_decrement.getD true, last_updated := lu }
  | _, _, _, _, _, _, _, _ => none

/-- The list comprehension
`[Supplement.from_dict(s) for s in data['supplements']]` (src/main.py line
1229): the whole list is built before being assigned, so one failing item
makes the whole parse fail with no partial result. -/
def parse_items : List RawItem → Option (List Supplement)
  | [] => some []
  | r :: rs =>
    match Supplement.from_dict r with
    | none => none
    | some s =>
      match parse_items rs with
      | none => none
      | some ss => some (s :: ss)

/-- The JSON document of a save file: the `supplements` and `save_date`
keys, each `none` when absent. -/
structure RawDoc where
  supplements : Option (List RawItem)
  save_date : Option Int
deriving DecidableEq, Repr

/-- The body of the load loop in `SupplementTracker.load_supplements`
(src/main.py lines 1235-1245): for each reconstructed item, if
`auto_decrement` is set the bulk catch-up decay
`max(0, current_count - days_passed * daily_dose)` is applied, and in every
case `last_updated` is stamped with today's date. -/
def load_update_item (days_passed now : Int) (s : Supplement) : Supplement :=
  let s1 :=
    if s.auto_decrement then
      { s with current_count := max 0 (s.current_count - days_passed * s.daily_dose) }
    else s
  { s1 with last_updated := now }

/-- `SupplementTracker.load_supplements` (src/main.py lines 1219-1261) as a
function from the prior in-memory list and the file contents to the new
in-memory list.  `file = none` models a file whose contents fail
`json.load` (the `JSONDecodeError` handler leaves the store alone).  The
sequencing inside the `try` block is modelled faithfully:
1. `data['supplements']` is read first — a missing key raises before the
   store is touched;
2. the item list is built in full — a failing item raises before the store
   is touched;
3. `self.supplements` is assigned;
4. only then is `data['save_date']` read — a missing key raises *after* the
   assignment, so the handler leaves the freshly assigned, undecayed list in
   place. -/
def load_supplements (now : Int) (prior : List Supplement)
    (file : Option RawDoc) : List Supplement :=
  match file with
  | none => prior
  | some doc =>
    match doc.supplements with
    | none => prior
    | some raws =>
      match parse_items raws with
      | none => prior
      | some supps =>
        match doc.save_date with
        | none => supps
        | some sd => supps.map (load_update_item (now - sd) now)

/-- The document written by `SupplementTracker.save_supplements`
(src/main.py lines 1190-1217): the serialized items under `supplements`
plus today's date under `save_date`. -/
def save_supplements (save_now : Int) (store : List Supplement) : RawDoc where
  supplements := some (store.map Supplement.to_dict)
  save_date := some save_now

theorem from_dict_to_dict (s : Supplement) :
    Supplement.from_dict (Supplement.to_dict s) = some s := by
  cases s; rfl

theorem parse_items_map_to_dict (store : List Supplement) :
    parse_items (store.map Supplement.to_dict) = some store := by
  induction store with
  | nil => rfl
  | cons s ss ih => simp [parse_items, from_dict_to_dict, ih]

/-! ## Claim C1 : sign of `days_passed` in `update_count` -/

/-- C1 counterexample: the claim says that with `autoDecrement` true and
`lastUpdated` in the future, `updateCount` treats `daysPassed` as 0 and never
changes `currentCount`.  On the code, for an item with `current_count = 5`,
`daily_dose = 2`, `last_updated` one day in the future and `now = 0`,
`days_passed = -1`, `doses_taken = -2` and the count *changes* to 7. -/
theorem update_count_future_cex :
    (Supplement.update_count 0 ⟨"A", 5, 30, 10, ["t"], "", 2, true, 1⟩).current_count = 7 ∧
    (Supplement.update_count 0 ⟨"A", 5, 30, 10, ["t"], "", 2, true, 1⟩).current_count ≠
      (Supplement.mk "A" 5 30 10 ["t"] "" 2 true 1).current_count := by
  constructor
  · decide
  · decide

/-- C1 (amended): `update_count` computes `days_passed` as the *signed*
calendar-day difference with no clamp at zero, so when `last_updated` is in
the future (with `auto_decrement` true, nonnegative count and positive dose)
`doses_taken` is negative and `current_count` strictly *increases* by
`(last_updated - now) * daily_dose`. -/
theorem update_count_future_increases (now : Int) (s : Supplement)
    (hauto : s.auto_decrement = true) (hfut : now < s.last_updated)
    (hcc : 0 ≤ s.current_count) (hdose : 0 < s.daily_dose) :
    (Supplement.update_count now s).current_count
      = s.current_count + (s.last_updated - now) * s.daily_dose ∧
    s.current_count < (Supplement.update_count now s).current_count := by
  have hpos : 0 < (s.last_updated - now) * s.daily_dose :=
    mul_pos (by omega) hdose
  have hX : s.current_count - (now - s.last_updated) * s.daily_dose
      = s.current_count + (s.last_updated - now) * s.daily_dose := by ring
  simp only [Supplement.update_count, hauto, Bool.not_true, Bool.false_eq_true,
    if_false, hX]
  constructor
  · exact max_eq_right (by omega)
  · have := max_eq_right
      (show (0 : Int) ≤ s.current_count + (s.last_updated - now) * s.daily_dose by omega)
    omega

/-- C1 witness: the amended theorem applied at the counterexample input. -/
theorem update_count_future_increases_witness :
    (Supplement.update_count 0 ⟨"A", 5, 30, 10, ["t"], "", 2, true, 1⟩).current_count
      = 5 + (1 - 0) * 2 ∧
    (5 : Int) < (Supplement.update_count 0 ⟨"A", 5, 30, 10, ["t"], "", 2, true, 1⟩).current_count :=
  update_count_future_increases 0 ⟨"A", 5, 30, 10, ["t"], "", 2, true, 1⟩
    (by decide) (by decide) (by decide) (by decide)

/-! ## Claim C2 : atomicity of `load_supplements` on parse failure -/

/-- C2: the claim (and §7 of the spec) requires that a load whose document is
missing a required field leaves the in-memory list untouched.  In the code,
`self.supplements` is assigned on line 1229 *before* `data['save_date']` is
read on line 1232, so a document with a valid `supplements` list but no
`save_date` key raises `KeyError` only after the store has already been
replaced: the handler then leaves the new, undecayed list in place.  Here the
prior store holds the item `Old` and loading such a document replaces it with
`New`. -/
theorem load_missing_save_date_mutates_store :
    load_supplements 100 [⟨"Old", 9, 9, 1, [], "", 1, true, 90⟩]
        (some ⟨some [Supplement.to_dict ⟨"New", 3, 3, 2, [], "", 1, true, 50⟩], none⟩)
      = [⟨"New", 3, 3, 2, [], "", 1, true, 50⟩] ∧
    ([⟨"New", 3, 3, 2, [], "", 1, true, 50⟩] : List Supplement)
      ≠ [⟨"Old", 9, 9, 1, [], "", 1, true, 90⟩] := by
  constructor
  · rfl
  · decide

/-! ## Claim C3 : same-day idempotence of `update_count` -/

/-- C3: after `update_count now`, an item with `auto_decrement` set carries
`last_updated = now`, and a second `update_count` with the same `now` sees a
calendar-day difference of 0 and leaves `current_count` unchanged (for items
with `auto_decrement` false both calls are no-ops). -/
theorem update_count_idem (now : Int) (s : Supplement) :
    (s.auto_decrement = true → (Supplement.update_count now s).last_updated = now) ∧
    (Supplement.update_count now (Supplement.update_count now s)).current_count
      = (Supplement.update_count now s).current_count := by
  refine ⟨fun hauto => ?_, ?_⟩
  · simp [Supplement.update_count, hauto]
  · by_cases h : s.auto_decrement
    · simp only [Supplement.update_count, h, Bool.not_true, Bool.false_eq_true,
        if_false, sub_self, zero_mul, sub_zero]
      omega
    · simp only [Bool.not_eq_true] at h
      simp [Supplement.update_count, h]

/-- C3 witness: the idempotence theorem at a concrete item,
`{count 30, dose 2, autoDecrement true}` updated twice on day 5. -/
theorem update_count_idem_witness :
    (Supplement.update_count 5 ⟨"A", 30, 30, 10, [], "", 2, true, 2⟩).last_updated = 5 ∧
    (Supplement.update_count 5
        (Supplement.update_count 5 ⟨"A", 30, 30, 10, [], "", 2, true, 2⟩)).current_count
      = (Supplement.update_count 5 ⟨"A", 30, 30, 10, [], "", 2, true, 2⟩).current_count :=
  ⟨(update_count_idem 5 ⟨"A", 30, 30, 10, [], "", 2, true, 2⟩).1 (by decide),
   (update_count_idem 5 ⟨"A", 30, 30, 10, [], "", 2, true, 2⟩).2⟩

/-! ## Claim C4 : non-negativity of the count under both decay paths -/

/-- C4: for an item with nonnegative `current_count`, both the per-item
`update_count` and the bulk catch-up decay applied by `load_supplements`
(`load_update_item`) keep `current_count` nonnegative: the decremented count
is floored at zero by `max(0, ...)`, and the `auto_decrement = false` branch
leaves the count untouched. -/
theorem decay_count_nonneg (d now : Int) (s : Supplement)
    (h : 0 ≤ s.current_count) :
    0 ≤ (Supplement.update_count now s).current_count ∧
    0 ≤ (load_update_item d now s).current_count := by
  by_cases ha : s.auto_decrement <;>
    simp [Supplement.update_count, load_update_item, ha]
  omega

/-- C4 witness: the spec scenario — save 10 days ago, `currentCount 5`,
`dailyDose 1` — floors at zero and stays nonnegative. -/
theorem decay_count_nonneg_witness :
    (0 : Int) ≤ (Supplement.mk "C" 5 5 1 [] "" 1 true 0).current_count ∧
    (0 ≤ (Supplement.update_count 10 ⟨"C", 5, 5, 1, [], "", 1, true, 0⟩).current_count ∧
     0 ≤ (load_update_item 10 10 ⟨"C", 5, 5, 1, [], "", 1, true, 0⟩).current_count) ∧
    (load_update_item 10 10 ⟨"C", 5, 5, 1, [], "", 1, true, 0⟩).current_count = 0 :=
  ⟨by decide,
   decay_count_nonneg 10 10 ⟨"C", 5, 5, 1, [], "", 1, true, 0⟩ (by decide),
   by decide⟩

/-! ## Claim C5 : save/load round-trip preserves static fields -/

/-- C5: loading a document produced by `save_supplements` succeeds and yields
exactly the saved items transformed by the bulk catch-up decay, and that
transformation preserves every static field (`name`, `initial_count`, `cost`,
`tags` with order and duplicates, `link`, `daily_dose`, `auto_decrement`);
only `current_count` (by the elapsed-whole-days formula) and `last_updated`
(stamped with the load date) change. -/
theorem save_load_roundtrip (now_s now_l : Int) (prior store : List Supplement) :
    load_supplements now_l prior (some (save_supplements now_s store))
      = store.map (load_update_item (now_l - now_s) now_l) ∧
    ∀ s : Supplement,
      (load_update_item (now_l - now_s) now_l s).name = s.name ∧
      (load_update_item (now_l - now_s) now_l s).initial_count = s.initial_count ∧
      (load_update_item (now_l - now_s) now_l s).cost = s.cost ∧
      (load_update_item (now_l - now_s) now_l s).tags = s.tags ∧
      (load_update_item (now_l - now_s) now_l s).link = s.link ∧
      (load_update_item (now_l - now_s) now_l s).daily_dose = s.daily_dose ∧
      (load_update_item (now_l - now_s) now_l s).auto_decrement = s.auto_decrement ∧
      (load_update_item (now_l - now_s) now_l s).last_updated = now_l ∧
      (load_update_item (now_l - now_s) now_l s).current_count
        = if s.auto_decrement then
            max 0 (s.current_count - (now_l - now_s) * s.daily_dose)
          else s.current_count := by
  constructor
  · simp [load_supplements, save_supplements, parse_items_map_to_dict]
  · intro s
    by_cases ha : s.auto_decrement <;> simp [load_update_item, ha]

/-! ## Claim C8 : totality of `days_remaining` -/

/-- C8: `days_remaining` is total — it never reaches the division (and hence
can never raise `ZeroDivisionError`) when `daily_dose = 0`, returning the
infinity sentinel instead, and otherwise returns the exact (unfloored)
quotient `current_count / daily_dose`. -/
theorem days_remaining_total (s : Supplement) :
    (Supplement.days_remaining s).isSome = true ∧
    (s.daily_dose = 0 → Supplement.days_remaining s = some PyFloat.inf) ∧
    (s.daily_dose ≠ 0 →
      Supplement.days_remaining s
        = some (PyFloat.val ((s.current_count : ℚ) / (s.daily_dose : ℚ)))) := by
  by_cases h : s.daily_dose = 0 <;>
    simp [Supplement.days_remaining, pydiv, h, Int.cast_eq_zero]

/-- C8 witness: a zero-dose item yields the infinity sentinel; a dose-2 item
yields the exact quotient. -/
theorem days_remaining_total_witness :
    Supplement.days_remaining ⟨"A", 30, 30, 10, [], "", 0, true, 0⟩ = some PyFloat.inf ∧
    Supplement.days_remaining ⟨"B", 30, 30, 10, [], "", 2, true, 0⟩
      = some (PyFloat.val (((30 : Int) : ℚ) / ((2 : Int) : ℚ))) :=
  ⟨(days_remaining_total ⟨"A", 30, 30, 10, [], "", 0, true, 0⟩).2.1 rfl,
   (days_remaining_total ⟨"B", 30, 30, 10, [], "", 2, true, 0⟩).2.2 (by decide)⟩

/-! ## The backup manager (`BackupManager`, src/main.py lines 28-283) -/

/-- One entry of the backup index, as appended by `create_backup`
(src/main.py lines 179-185).  `timestamp` is modelled as `Int`: the code
stores `datetime.now().isoformat()` strings, whose lexicographic order
coincides with chronological order, which is all `list_backups` and
`cleanup_old_backups` use. -/
structure BackupInfo where
  filename : String
  original_file : String
  timestamp : Int
  is_auto : Bool
  size : Int
deriving DecidableEq, Repr

/-- The sort key of `list_backups`: newest first
(`key=lambda x: x['timestamp'], reverse=True`). -/
def ts_desc (a b : BackupInfo) : Prop := b.timestamp ≤ a.timestamp

instance : DecidableRel ts_desc := fun a b =>
  inferInstanceAs (Decidable (b.timestamp ≤ a.timestamp))

instance : IsTotal BackupInfo ts_desc :=
  ⟨fun a b => le_total b.timestamp a.timestamp⟩

instance : IsTrans BackupInfo ts_desc :=
  ⟨fun _ _ _ h1 h2 => le_trans h2 h1⟩

/-- `BackupManager.list_backups` (src/main.py lines 203-212): the index
records sorted by timestamp descending.  Python's `sorted` is a stable sort;
`List.insertionSort` with this relation is also stable (an element is
inserted before exactly the later-coming elements with an equal key), so the
two agree on ties as well. -/
def list_backups (idx : List BackupInfo) : List BackupInfo :=
  List.insertionSort ts_desc idx

/-- `BackupManager.should_create_backup` (src/main.py lines 122-143), with
the state and clock passed explicitly: manual saves always qualify; an
automatic save qualifies when at least `min_backup_interval_minutes * 60`
seconds have passed since `last_backup_time`. -/
def should_create_backup (is_auto_save : Bool) (last_backup_time : Int)
    (current_time : Int) (min_backup_interval_minutes : Int) : Bool :=
  if !is_auto_save then true
  else if min_backup_interval_minutes * 60 ≤ current_time - last_backup_time then true
  else false

/-- The in-memory state a fresh `BackupManager` starts with. -/
structure BackupManager where
  last_backup_time : Int
  backup_index : List BackupInfo
deriving DecidableEq, Repr

/-- `BackupManager.__init__` (src/main.py lines 36-62): the persisted index
is loaded from disk (taken here as the parameter `loaded_index`), but
`last_backup_time` is unconditionally set to the literal `0` — it is never
recovered from the loaded records. -/
def BackupManager.init (loaded_index : List BackupInfo) : BackupManager where
  last_backup_time := 0
  backup_index := loaded_index

/-- The `for backup in backups[max_backups:]` loop of `cleanup_old_backups`
(src/main.py lines 228-235): each listed file that exists in the backup
directory (`fs`) is removed and counted; a missing file is skipped. -/
def remove_files : List BackupInfo → List String → Nat × List String
  | [], fs => (0, fs)
  | b :: rest, fs =>
    if b.filename ∈ fs then
      let r := remove_files rest (fs.erase b.filename)
      (r.1 + 1, r.2)
    else remove_files rest fs

/-- `BackupManager.cleanup_old_backups` (src/main.py lines 214-241), acting
on the backup directory contents `fs` and the index `idx`.  Returns the
count removed, the new index and the new directory contents.  When the index
is already within `max_backups` it returns 0 at once, touching nothing;
otherwise it deletes the files of the records past the first `max_backups`
of the descending-sorted listing and keeps only those first records. -/
def cleanup_old_backups (fs : List String) (idx : List BackupInfo)
    (max_backups : Nat) : Nat × List BackupInfo × List String :=
  let backups := list_backups idx
  if backups.length ≤ max_backups then (0, idx, fs)
  else
    let r := remove_files (backups.drop max_backups) fs
    (r.1, backups.take max_backups, r.2)

/-! ## Claim C7 : `should_create_backup` eligibility -/

/-- C7: a manual save (`is_auto_save = false`) is always eligible, and an
automatic save is eligible exactly when the elapsed time since the last
backup reaches the configured interval (`min_backup_interval_minutes`,
converted to seconds by the code). -/
theorem should_create_backup_spec (t now m : Int) :
    should_create_backup false t now m = true ∧
    (should_create_backup true t now m = true ↔ m * 60 ≤ now - t) := by
  refine ⟨rfl, ?_⟩
  by_cases h : m * 60 ≤ now - t <;> simp [should_create_backup, h]

/-! ## Claim C10 : a fresh `BackupManager` forgets the last backup time -/

/-- C10: `BackupManager.__init__` sets the in-memory `last_backup_time` to 0
for every loaded index — it is not recovered from the persisted records — so
the first automatic save of a process run is eligible whenever the current
epoch time is at least the configured interval (always true in practice),
no matter how recently a backup was made in a previous run. -/
theorem init_last_backup_time_zero (loaded_index : List BackupInfo)
    (now m : Int) :
    (BackupManager.init loaded_index).last_backup_time = 0 ∧
    (m * 60 ≤ now →
      should_create_backup true (BackupManager.init loaded_index).last_backup_time
        now m = true) := by
  refine ⟨rfl, fun h => ?_⟩
  simp [BackupManager.init, should_create_backup]
  omega

/-- C10 witness: an index recording a backup taken moments ago (timestamp
999999) still leaves a fresh manager eligible at time 1000000 with a
60-minute interval. -/
theorem init_last_backup_time_zero_witness :
    (BackupManager.init [⟨"backup_a.sup", "supplements.sup", 999999, true, 100⟩]).last_backup_time
      = 0 ∧
    should_create_backup true
      (BackupManager.init [⟨"backup_a.sup", "supplements.sup", 999999, true, 100⟩]).last_backup_time
      1000000 60 = true :=
  ⟨(init_last_backup_time_zero [⟨"backup_a.sup", "supplements.sup", 999999, true, 100⟩]
      1000000 60).1,
   (init_last_backup_time_zero [⟨"backup_a.sup", "supplements.sup", 999999, true, 100⟩]
      1000000 60).2 (by decide)⟩

/-! ## Claim C6 : `cleanup_old_backups` retention policy -/

theorem remove_files_subset (ds : List BackupInfo) (fs : List String) :
    (remove_files ds fs).2 ⊆ fs := by
  induction ds generalizing fs with
  | nil => simp [remove_files]
  | cons b rest ih =>
    intro x hx
    by_cases h : b.filename ∈ fs
    · simp only [remove_files, h, if_true] at hx
      exact List.erase_subset b.filename fs (ih (fs.erase b.filename) hx)
    · simp only [remove_files, h, if_false] at hx
      exact ih fs hx

theorem filenames_mem_erase {b : BackupInfo} {rest : List BackupInfo}
    {fs : List String}
    (hmem : ∀ x ∈ b :: rest, x.filename ∈ fs)
    (hnb : b.filename ∉ rest.map BackupInfo.filename) :
    ∀ x ∈ rest, x.filename ∈ fs.erase b.filename := by
  intro x hx
  refine (List.mem_erase_of_ne ?_).mpr (hmem x (List.mem_cons_of_mem _ hx))
  intro hEq
  exact hnb (hEq ▸ List.mem_map_of_mem BackupInfo.filename hx)

theorem remove_files_count (ds : List BackupInfo) (fs : List String)
    (hmem : ∀ b ∈ ds, b.filename ∈ fs)
    (hnd : (ds.map BackupInfo.filename).Nodup) :
    (remove_files ds fs).1 = ds.length := by
  induction ds generalizing fs with
  | nil => rfl
  | cons b rest ih =>
    have hb : b.filename ∈ fs := hmem b (by simp)
    simp only [List.map_cons, List.nodup_cons] at hnd
    simp only [remove_files, hb, if_true, List.length_cons]
    rw [ih (fs.erase b.filename) (filenames_mem_erase hmem hnd.1) hnd.2]

theorem remove_files_deleted (ds : List BackupInfo) (fs : List String)
    (hfs : fs.Nodup)
    (hmem : ∀ b ∈ ds, b.filename ∈ fs)
    (hnd : (ds.map BackupInfo.filename).Nodup) :
    ∀ b ∈ ds, b.filename ∉ (remove_files ds fs).2 := by
  induction ds generalizing fs with
  | nil => simp
  | cons b rest ih =>
    have hb : b.filename ∈ fs := hmem b (by simp)
    simp only [List.map_cons, List.nodup_cons] at hnd
    intro x hx
    simp only [remove_files, hb, if_true]
    rcases List.mem_cons.mp hx with rfl | hx'
    · intro hcon
      have hmem' := remove_files_subset rest (fs.erase x.filename) hcon
      exact ((hfs.mem_erase_iff.mp hmem').1) rfl
    · exact ih (fs.erase b.filename) (hfs.erase _)
        (filenames_mem_erase hmem hnd.1) hnd.2 x hx'

/-- C6: with `max_backups ≥ 1`, a duplicate-free backup directory that
contains the files of all records past the retention limit, and pairwise
distinct filenames among those records, `cleanup_old_backups`
* leaves exactly `min (number of records) max_backups` records in the index;
* is a complete no-op returning 0 when the index is already within the
  limit;
* otherwise returns the number removed, keeps exactly the first
  `max_backups` records of the timestamp-descending listing (which are
  sorted descending and all at least as recent as every evicted record),
  and deletes the evicted records' files from the directory. -/
theorem cleanup_old_backups_spec (fs : List String) (idx : List BackupInfo)
    (max_backups : Nat) (_hmax : 1 ≤ max_backups) (hfs : fs.Nodup)
    (hmem : ∀ b ∈ (list_backups idx).drop max_backups, b.filename ∈ fs)
    (hnd : (((list_backups idx).drop max_backups).map BackupInfo.filename).Nodup) :
    (cleanup_old_backups fs idx max_backups).2.1.length = min idx.length max_backups ∧
    (idx.length ≤ max_backups → cleanup_old_backups fs idx max_backups = (0, idx, fs)) ∧
    (max_backups < idx.length →
      (cleanup_old_backups fs idx max_backups).1 = idx.length - max_backups ∧
      (cleanup_old_backups fs idx max_backups).2.1 = (list_backups idx).take max_backups ∧
      List.Sorted ts_desc (cleanup_old_backups fs idx max_backups).2.1 ∧
      (∀ a ∈ (cleanup_old_backups fs idx max_backups).2.1,
        ∀ b ∈ (list_backups idx).drop max_backups, b.timestamp ≤ a.timestamp) ∧
      (∀ b ∈ (list_backups idx).drop max_backups,
        b.filename ∉ (cleanup_old_backups fs idx max_backups).2.2)) := by
  have hlen : (list_backups idx).length = idx.length :=
    List.length_insertionSort ts_desc idx
  have hsorted : List.Sorted ts_desc (list_backups idx) :=
    List.sorted_insertionSort ts_desc idx
  by_cases hc : (list_backups idx).length ≤ max_backups
  · have hcl : cleanup_old_backups fs idx max_backups = (0, idx, fs) := by
      simp [cleanup_old_backups, hc]
    refine ⟨?_, fun _ => hcl, fun hlt => absurd hlt (by omega)⟩
    rw [hcl]
    simp only
    omega
  · have hlt : max_backups < idx.length := by omega
    have hcl : cleanup_old_backups fs idx max_backups
        = ((remove_files ((list_backups idx).drop max_backups) fs).1,
           (list_backups idx).take max_backups,
           (remove_files ((list_backups idx).drop max_backups) fs).2) := by
      simp [cleanup_old_backups, hc]
    have hpair :
        ∀ a ∈ (list_backups idx).take max_backups,
          ∀ b ∈ (list_backups idx).drop max_backups, ts_desc a b := by
      have := hsorted
      rw [← List.take_append_drop max_backups (list_backups idx)] at this
      exact (List.pairwise_append.mp this).2.2
    refine ⟨?_, fun hle => absurd hle (by omega), fun _ => ?_⟩
    · rw [hcl]
      simp only [List.length_take]
      omega
    · refine ⟨?_, ?_, ?_, ?_, ?_⟩
      · rw [hcl]
        simp only
        rw [remove_files_count _ _ hmem hnd, List.length_drop, hlen]
      · rw [hcl]
      · rw [hcl]
        exact hsorted.sublist (List.take_sublist _ _)
      · rw [hcl]
        simp only
        exact hpair
      · rw [hcl]
        simp only
        exact remove_files_deleted _ _ hfs hmem hnd

/-- Sample backup directory for the C6 witness: six artifact files. -/
def sample_fs : List String :=
  ["b1.sup", "b2.sup", "b3.sup", "b4.sup", "b5.sup", "b6.sup"]

/-- Sample backup index for the C6 witness: six records with increasing
timestamps (the spec scenario: 6 records, `maxBackups = 5`). -/
def sample_idx : List BackupInfo :=
  [⟨"b1.sup", "supplements.sup", 1, true, 10⟩,
   ⟨"b2.sup", "supplements.sup", 2, true, 10⟩,
   ⟨"b3.sup", "supplements.sup", 3, false, 10⟩,
   ⟨"b4.sup", "supplements.sup", 4, true, 10⟩,
   ⟨"b5.sup", "supplements.sup", 5, true, 10⟩,
   ⟨"b6.sup", "supplements.sup", 6, false, 10⟩]

/-- C6 witness: the retention theorem at the spec scenario (6 records,
`maxBackups = 5`): exactly 5 records remain, the oldest file is deleted. -/
theorem cleanup_old_backups_spec_witness :
    (cleanup_old_backups sample_fs sample_idx 5).2.1.length = min sample_idx.length 5 ∧
    (sample_idx.length ≤ 5 →
      cleanup_old_backups sample_fs sample_idx 5 = (0, sample_idx, sample_fs)) ∧
    (5 < sample_idx.length →
      (cleanup_old_backups sample_fs sample_idx 5).1 = sample_idx.length - 5 ∧
      (cleanup_old_backups sample_fs sample_idx 5).2.1 = (list_backups sample_idx).take 5 ∧
      List.Sorted ts_desc (cleanup_old_backups sample_fs sample_idx 5).2.1 ∧
      (∀ a ∈ (cleanup_old_backups sample_fs sample_idx 5).2.1,
        ∀ b ∈ (list_backups sample_idx).drop 5, b.timestamp ≤ a.timestamp) ∧
      (∀ b ∈ (list_backups sample_idx).drop 5,
        b.filename ∉ (cleanup_old_backups sample_fs sample_idx 5).2.2)) :=
  cleanup_old_backups_spec sample_fs sample_idx 5
    (by decide) (by decide) (by decide) (by decide)

/-! ## Claim C9 : `generate_backup_filename` collision handling

`BackupManager.generate_backup_filename` (src/main.py lines 94-120) builds
`backup_{timestamp}{ext}` and, while the name exists on disk, retries with
`backup_{timestamp}_{counter}{ext}` for `counter = 1, 2, …`.  The model uses
`fs.length + 1` as fuel for the retry loop: the candidate names for the
first `fs.length + 1` counters are pairwise distinct (decimal rendering of
`Nat` is injective, proved below), so a directory of `fs.length` files
cannot contain them all and the loop always stops within the fuel. -/

/-- The counter candidate `f"backup_{timestamp}_{counter}{ext}"`
(src/main.py line 116); `Nat.repr` is Python's `str` on a nonnegative
integer. -/
def gen_counter_name (ts ext : String) (c : Nat) : String :=
  "backup_" ++ ts ++ "_" ++ Nat.repr c ++ ext

/-- The `while os.path.exists(full_path)` retry loop (src/main.py lines
113-118), with explicit fuel. -/
def find_free_name (fs : List String) (ts ext : String) : Nat → Nat → String
  | 0, c => gen_counter_name ts ext c
  | fuel + 1, c =>
    if gen_counter_name ts ext c ∈ fs then find_free_name fs ts ext fuel (c + 1)
    else gen_counter_name ts ext c

/-- `BackupManager.generate_backup_filename` (src/main.py lines 94-120):
first candidate `backup_{timestamp}{ext}`, then counter suffixes until the
name is free. -/
def generate_backup_filename (fs : List String) (ts ext : String) : String :=
  if "backup_" ++ ts ++ ext ∈ fs then find_free_name fs ts ext (fs.length + 1) 1
  else "backup_" ++ ts ++ ext

/-- The name of the artifact actually written by `create_backup`
(src/main.py lines 164-175): the generated name, with `.gz` appended *after*
collision checking when compression is enabled. -/
def create_backup_stored_name (compression_enabled : Bool) (fs : List String)
    (ts ext : String) : String :=
  if compression_enabled then generate_backup_filename fs ts ext ++ ".gz"
  else generate_backup_filename fs ts ext

/-- The backup directory after `create_backup` writes its artifact (the
write overwrites silently when the name already exists). -/
def create_backup_fs (compression_enabled : Bool) (fs : List String)
    (ts ext : String) : List String :=
  if create_backup_stored_name compression_enabled fs ts ext ∈ fs then fs
  else create_backup_stored_name compression_enabled fs ts ext :: fs

/-- Decimal digit value of a digit character (inverse of `Nat.digitChar` on
digits). -/
def chd (c : Char) : Nat := c.toNat - 48

theorem chd_digitChar : ∀ k, k < 10 → chd (Nat.digitChar k) = k := by decide

/-- The number denoted by a most-significant-digit-first digit string. -/
def valOf (l : List Char) : Nat := l.foldl (fun a c => a * 10 + chd c) 0

theorem valOf_append_singleton (xs : List Char) (d : Char) :
    valOf (xs ++ [d]) = valOf xs * 10 + chd d := by
  simp [valOf, List.foldl_append]

theorem toDigitsCore_acc (fuel : Nat) : ∀ (n : Nat) (ds : List Char),
    Nat.toDigitsCore 10 fuel n ds = Nat.toDigitsCore 10 fuel n [] ++ ds := by
  induction fuel with
  | zero => intro n ds; simp [Nat.toDigitsCore]
  | succ f ih =>
    intro n ds
    simp only [Nat.toDigitsCore]
    by_cases h : n / 10 = 0
    · simp [h]
    · simp only [h, if_false]
      rw [ih (n / 10) (Nat.digitChar (n % 10) :: ds),
        ih (n / 10) [Nat.digitChar (n % 10)]]
      simp

theorem valOf_toDigitsCore :
    ∀ fuel n, n < fuel → valOf (Nat.toDigitsCore 10 fuel n []) = n := by
  intro fuel
  induction fuel with
  | zero => intro n h; omega
  | succ f ih =>
    intro n h
    simp only [Nat.toDigitsCore]
    by_cases h10 : n / 10 = 0
    · simp only [h10, if_true]
      have hn : n % 10 < 10 := by omega
      simp [valOf, chd_digitChar (n % 10) hn]
      omega
    · simp only [h10, if_false]
      rw [toDigitsCore_acc, valOf_append_singleton,
        ih (n / 10) (by omega), chd_digitChar (n % 10) (by omega)]
      omega

/-- Python's decimal rendering of a nonnegative integer is injective. -/
theorem nat_repr_data_inj {m n : Nat}
    (h : (Nat.repr m).data = (Nat.repr n).data) : m = n := by
  have hm : valOf (Nat.toDigits 10 m) = m :=
    valOf_toDigitsCore (m + 1) m (by omega)
  have hn : valOf (Nat.toDigits 10 n) = n :=
    valOf_toDigitsCore (n + 1) n (by omega)
  simp only [Nat.repr, List.asString] at h
  rw [← hm, ← hn]
  exact congrArg valOf h

theorem gen_counter_name_inj {ts ext : String} {c₁ c₂ : Nat}
    (h : gen_counter_name ts ext c₁ = gen_counter_name ts ext c₂) : c₁ = c₂ := by
  apply nat_repr_data_inj
  have hd := congrArg String.data h
  simp only [gen_counter_name, String.data_append, List.append_assoc] at hd
  have h1 := (List.append_right_inj _).mp hd
  have h2 := (List.append_right_inj _).mp h1
  have h3 := (List.append_right_inj _).mp h2
  exact (List.append_left_inj _).mp h3

/-- Among the first `fs.length + 1` counter candidates at least one name is
not in the directory. -/
theorem exists_free_counter (fs : List String) (ts ext : String) :
    ∃ j, j < fs.length + 1 ∧ gen_counter_name ts ext (1 + j) ∉ fs := by
  by_contra hcon
  push_neg at hcon
  have hinj : Function.Injective (fun j : Nat => gen_counter_name ts ext (1 + j)) := by
    intro a b hab
    have := gen_counter_name_inj hab
    omega
  have hsub : (Finset.range (fs.length + 1)).image
      (fun j => gen_counter_name ts ext (1 + j)) ⊆ fs.toFinset := by
    intro x hx
    simp only [Finset.mem_image, Finset.mem_range] at hx
    obtain ⟨j, hj, rfl⟩ := hx
    exact List.mem_toFinset.mpr (hcon j hj)
  have h1 : ((Finset.range (fs.length + 1)).image
      (fun j => gen_counter_name ts ext (1 + j))).card = fs.length + 1 := by
    rw [Finset.card_image_of_injective _ hinj, Finset.card_range]
  have h2 := Finset.card_le_card hsub
  have h3 : fs.toFinset.card ≤ fs.length := fs.toFinset_card_le
  omega

theorem find_free_name_spec (fs : List String) (ts ext : String) :
    ∀ fuel c, (∃ j, j < fuel ∧ gen_counter_name ts ext (c + j) ∉ fs) →
      find_free_name fs ts ext fuel c ∉ fs := by
  intro fuel
  induction fuel with
  | zero =>
    intro c h
    obtain ⟨j, hj, _⟩ := h
    omega
  | succ f ih =>
    intro c h
    simp only [find_free_name]
    by_cases hc : gen_counter_name ts ext c ∈ fs
    · simp only [hc, if_true]
      apply ih (c + 1)
      obtain ⟨j, hj, hfree⟩ := h
      rcases j with _ | j'
      · exact absurd hc (by simpa using hfree)
      · exact ⟨j', by omega, by rw [show c + 1 + j' = c + (j' + 1) by omega]; exact hfree⟩
    · simp only [hc, if_false]
      exact not_false

/-- The generated filename is never one that already exists (`while` loop
plus fuel sufficiency). -/
theorem generate_backup_filename_fresh (fs : List String) (ts ext : String) :
    generate_backup_filename fs ts ext ∉ fs := by
  simp only [generate_backup_filename]
  by_cases hb : "backup_" ++ ts ++ ext ∈ fs
  · simp only [hb, if_true]
    apply find_free_name_spec fs ts ext (fs.length + 1) 1
    obtain ⟨j, hj, hfree⟩ := exists_free_counter fs ts ext
    exact ⟨j, hj, hfree⟩
  · simp only [hb, if_false]
    exact not_false

/-- C9 counterexample: with compression enabled, the collision check of
`generate_backup_filename` tests the *uncompressed* name while the artifact
is stored under `name.gz`.  Two calls with the identical timestamp
`20250101_120000` on an initially empty directory therefore store under the
*same* filename, the second overwriting the first — the claim's "distinct
stored filenames, never overwrite" fails as stated. -/
theorem create_backup_same_timestamp_overwrite_cex :
    create_backup_stored_name true
        (create_backup_fs true [] "20250101_120000" ".sup") "20250101_120000" ".sup"
      = create_backup_stored_name true [] "20250101_120000" ".sup" ∧
    create_backup_stored_name true
        (create_backup_fs true [] "20250101_120000" ".sup") "20250101_120000" ".sup"
      ∈ create_backup_fs true [] "20250101_120000" ".sup" := by
  constructor
  · rfl
  · decide

/-- C9 (amended): with compression *disabled*, for every state of the backup
directory the stored name is fresh, and a second call with the identical
timestamp stores under a fresh name distinct from the first — no overwrite.
(With compression enabled the collision check tests the uncompressed name,
so an identical timestamp overwrites the existing `.gz` artifact.) -/
theorem create_backup_unique_uncompressed (fs : List String) (ts ext : String) :
    create_backup_stored_name false fs ts ext ∉ fs ∧
    create_backup_stored_name false (create_backup_fs false fs ts ext) ts ext
      ∉ create_backup_fs false fs ts ext ∧
    create_backup_stored_name false (create_backup_fs false fs ts ext) ts ext
      ≠ create_backup_stored_name false fs ts ext := by
  have hgen : ∀ g : List String, create_backup_stored_name false g ts ext
      = generate_backup_filename g ts ext := fun g => by
    simp [create_backup_stored_name]
  have h1 : create_backup_stored_name false fs ts ext ∉ fs := by
    rw [hgen]
    exact generate_backup_filename_fresh fs ts ext
  have hfs1 : create_backup_fs false fs ts ext
      = create_backup_stored_name false fs ts ext :: fs := by
    simp only [create_backup_fs, if_neg h1]
  have h2 : create_backup_stored_name false (create_backup_fs false fs ts ext) ts ext
      ∉ create_backup_fs false fs ts ext := by
    rw [hgen]
    exact generate_backup_filename_fresh _ ts ext
  refine ⟨h1, h2, fun hEq => ?_⟩
  apply h2
  rw [hEq, hfs1]
  exact List.mem_cons_self _ _
